import Mathlib

/-!
Verification development for the yt-download-bot repository
(`src/main.py`, `src/config.py`).

The Python sources are shallowly embedded as executable Lean definitions:

* exact rational arithmetic (`ℚ`) models the Python float arithmetic used
  here (all operations performed by the code on sizes and bitrates are
  dyadic-exact at the magnitudes involved);
* the in-memory dict `user_video_info` and the working folder are modelled
  as association lists (`lookupA` / `insertA` / `eraseA` give Python dict
  and filesystem lookup/overwrite/delete semantics);
* external effects (the yt-dlp extractor, the ffmpeg/ffprobe processes, the
  Telegram transport) are oracle parameters describing the observable result
  of each external call, exactly as the handlers branch on them.
-/

namespace YtBot

/-! ## Association-list model of Python dict / filesystem lookups -/

/-- Lookup of a key in an association list (Python `d[k]` / `k in d` /
`os.path.getsize` on a modelled folder). -/
def lookupA {α β : Type} [DecidableEq α] : List (α × β) → α → Option β
  | [], _ => none
  | p :: l, k => if p.1 = k then some p.2 else lookupA l k

/-- Removal of a key (Python `del d[k]` / `os.remove`). -/
def eraseA {α β : Type} [DecidableEq α] : List (α × β) → α → List (α × β)
  | [], _ => []
  | p :: l, k => if p.1 = k then eraseA l k else p :: eraseA l k

/-- Insert-or-overwrite of a key (Python `d[k] = v` / writing a file). -/
def insertA {α β : Type} [DecidableEq α] (l : List (α × β)) (k : α) (v : β) :
    List (α × β) :=
  eraseA l k ++ [(k, v)]

/-! ## Configuration constants (src/config.py) -/

/-- Config line 11: `TELEGRAM_FILE_LIMIT_MB = 50`, the delivery size ceiling. -/
def TELEGRAM_FILE_LIMIT_MB : ℚ := 50

/-- Config line 12: `TARGET_COMPRESSED_SIZE_MB = 45`, the compression target. -/
def TARGET_COMPRESSED_SIZE_MB : ℚ := 45

/-- Hard wall-clock timeout (seconds) passed to the encoder run
(`timeout=600`, src/main.py line 118). -/
def compress_timeout_seconds : ℕ := 600

/-! ## Size/Bitrate Calculator (src/main.py lines 86-92) -/

/-- Python `int()` applied to an exact rational value: truncation toward
zero. -/
def pyInt (q : ℚ) : ℤ := if 0 ≤ q then ⌊q⌋ else -⌊-q⌋

/-- Line 88: `target_total_bitrate = int((target_size_mb * 8192) / duration)`. -/
def target_total_bitrate (target_size_mb duration : ℚ) : ℤ :=
  pyInt (target_size_mb * 8192 / duration)

/-- Line 91: `audio_bitrate = 128`, the fixed audio reservation. -/
def audio_bitrate : ℤ := 128

/-- Line 92: `video_bitrate = max(target_total_bitrate - audio_bitrate, 100)`. -/
def video_bitrate (target_size_mb duration : ℚ) : ℤ :=
  max (target_total_bitrate target_size_mb duration - audio_bitrate) 100

/-! ## Transcode Engine (src/main.py lines 73-135)

`compress_video` is modelled over two oracles describing the external calls:
the duration probe result (`get_video_duration`, which returns `None` on any
ffprobe failure) and the encoder run.  `EncoderResult.completed rc osize`
means the ffmpeg subprocess finished with exit code `rc` and the output file
afterwards holds `osize` bytes (`none`: no output file, so the
`os.path.getsize` call on line 123 raises); `timedOut` is the
`subprocess.TimeoutExpired` of the hard 600s limit; `raised` is any other
exception reaching the final `except` clause.  The Python function body is a
single `try` block whose every failure arm executes `return False`, so the
model is a total `Bool`-valued function: no exception escapes to the caller
and the encoder is invoked at most once (no retry). -/

/-- Result of the external ffmpeg encoder invocation. -/
inductive EncoderResult
  | completed (returncode : ℤ) (outputSize : Option ℕ)
  | timedOut
  | raised
deriving DecidableEq

/-- Lines 73-135: control flow of `compress_video`.  `probeDuration` is the
value returned by `get_video_duration` (line 81); the guard on line 82 is
Python `if not duration`, which rejects exactly `None` and `0.0`. -/
def compress_video (probeDuration : Option ℚ) (enc : EncoderResult) : Bool :=
  match probeDuration with
  | none => false
  | some d =>
      if d = 0 then false
      else
        match enc with
        | .timedOut => false
        | .raised => false
        | .completed rc osize => if rc = 0 then osize.isSome else false

/-! ## Metadata Fetcher — variant catalog (src/main.py lines 249-288)

A yt-dlp format dict is modelled by the fields the handler reads; absent
keys are `none` (`fmt.get(...)` returns `None`).  Python truthiness is made
explicit: `if height` holds for `some h` with `h ≠ 0`, and
`a or b or 0` takes the first truthy operand. -/

/-- One entry of the extractor's raw format list, restricted to the keys
`handle_url` reads. -/
structure Format where
  vcodec : Option String
  acodec : Option String
  height : Option ℕ
  format_id : Option String
  filesize : Option ℕ
  filesize_approx : Option ℕ
  ext : Option String
deriving DecidableEq

/-- Line 252: `fmt.get('vcodec') != 'none' and fmt.get('acodec') != 'none'`. -/
def keeps (f : Format) : Bool :=
  decide (f.vcodec ≠ some "none") && decide (f.acodec ≠ some "none")

/-- Python truthiness of an optional integer (`None` and `0` are falsy). -/
def truthyN (o : Option ℕ) : Option ℕ :=
  match o with
  | some n => if n = 0 then none else some n
  | none => none

/-- Line 254 truthiness test `if height`: the height under which a format is
bucketed, or `none` when the field is absent or `0`. -/
def truthyHeight (f : Format) : Option ℕ := truthyN f.height

/-- The value recorded for one quality bucket (lines 256-260). -/
structure FmtEntry where
  format_id : Option String
  filesize : ℕ
  ext : String
deriving DecidableEq

/-- Line 255: `filesize = fmt.get('filesize') or fmt.get('filesize_approx') or 0`. -/
def pyFilesize (f : Format) : ℕ :=
  ((truthyN f.filesize).or (truthyN f.filesize_approx)).getD 0

/-- Lines 256-260: the dict value stored for a format
(`{'format_id': ..., 'filesize': ..., 'ext': fmt.get('ext', 'mp4')}`). -/
def mkEntry (f : Format) : FmtEntry :=
  { format_id := f.format_id
    filesize := pyFilesize f
    ext := f.ext.getD "mp4" }

/-- Lines 251-260: one iteration of the format loop updating the
`video_formats` dict (insertion only when the height key is new). -/
def addFormat (acc : List (ℕ × FmtEntry)) (f : Format) : List (ℕ × FmtEntry) :=
  if keeps f then
    match truthyHeight f with
    | some h =>
        match lookupA acc h with
        | none => acc ++ [(h, mkEntry f)]
        | some _ => acc
    | none => acc
  else acc

/-- Lines 249-260: the `video_formats` dict built from the raw format list. -/
def video_formats (fmts : List Format) : List (ℕ × FmtEntry) :=
  fmts.foldl addFormat []

/-- Line 263: `sorted_qualities = sorted(video_formats.keys(), reverse=True)`. -/
def sorted_qualities (fmts : List Format) : List ℕ :=
  List.insertionSort (fun a b => a ≥ b) ((video_formats fmts).map Prod.fst)

/-- One row of the offered quality keyboard: a video variant at a given
height, or the synthetic audio-only entry (line 288). -/
inductive Variant
  | video (height : ℕ) (entry : FmtEntry)
  | audio
deriving DecidableEq

/-- Lines 266-288: the ordered variant catalog (keyboard rows): one row per
sorted height, looked up in `video_formats`, then the audio entry. -/
def buildVariantCatalog (fmts : List Format) : List Variant :=
  ((sorted_qualities fmts).filterMap
      (fun h => (lookupA (video_formats fmts) h).map (Variant.video h)))
    ++ [Variant.audio]

/-- Heights of the video rows of a catalog, in order. -/
def catalogHeights (l : List Variant) : List ℕ :=
  l.filterMap (fun v => match v with | .video h _ => some h | .audio => none)

/-- The predicate by which line 251's loop first reaches height `h`. -/
def matchesHeight (h : ℕ) (f : Format) : Bool :=
  keeps f && (truthyHeight f == some h)

/-- A format carrying both streams whose `height` field is present (non-null)
but `0`. -/
def zeroHeightFormat : Format :=
  { vcodec := some "avc1", acodec := some "mp4a", height := some 0,
    format_id := some "f0", filesize := some 1000, filesize_approx := none,
    ext := some "mp4" }

/-- Format list of the spec's dedup example: heights 1080, 720, 1080, 480,
with assorted filesize fields to exercise the recorded fallbacks. -/
def exampleFormats : List Format :=
  [ { vcodec := some "avc1", acodec := some "mp4a", height := some 1080,
      format_id := some "hi1080", filesize := some 900,
      filesize_approx := none, ext := some "mp4" },
    { vcodec := some "avc1", acodec := some "mp4a", height := some 720,
      format_id := some "mid720", filesize := none,
      filesize_approx := some 500, ext := some "webm" },
    { vcodec := some "avc1", acodec := some "mp4a", height := some 1080,
      format_id := some "lo1080", filesize := some 800,
      filesize_approx := none, ext := some "mp4" },
    { vcodec := some "avc1", acodec := some "mp4a", height := some 480,
      format_id := some "lo480", filesize := none,
      filesize_approx := none, ext := none } ]

/-! ## Delivery Pipeline (src/main.py lines 207-314 and 317-443)

State: the `user_video_info` dict (line 25) keyed by chat id, and the
working folder modelled as an association list from path to size in bytes.
External effects are oracles:

* `fetched` — result of `get_video_info` (`None` on any extractor failure);
* `dl` — result of `download_video_with_progress`: `none` when it returned
  `None`, otherwise the returned path together with the state of that path
  on disk afterwards (`none`: the path does not exist, so line 344's
  `os.path.exists` check fails);
* `cmp` — `cmp.success` is the Bool returned by `compress_video` and
  `cmp.output` the size of the file ffmpeg left at the compressed path, if
  any (an unsuccessful run may still leave a partial output);
* `uploadOk` — whether the Telegram send succeeded; on failure the raised
  exception reaches the outer `except` (line 441), which performs no
  cleanup. -/

/-- One `user_video_info` record (lines 242-246). -/
structure Session where
  url : String
  title : String
  formats : List Format
deriving DecidableEq

/-- Result of a successful `get_video_info` call (the fields read). -/
structure VideoInfo where
  title : String
  duration : ℕ
  formats : List Format
deriving DecidableEq

/-- The shared mutable state: session store and working folder
(path ↦ size in bytes). -/
structure BotState where
  sessions : List (ℕ × Session)
  files : List (String × ℕ)
deriving DecidableEq

/-- Terminal report of one handler invocation. -/
inductive Outcome
  | invalidUrl
  | metadataUnavailable
  | noOptions
  | offered
  | sessionExpired
  | downloadFailed
  | compressionFailed
  | stillTooLarge
  | delivered
  | uploadFailed
deriving DecidableEq

/-- A quality selection (`quality_720` / `quality_audio` callback data). -/
inductive Quality
  | video (height : ℕ)
  | audio
deriving DecidableEq

/-- Externally observable calls made by `handle_quality_selection`, in
order. -/
inductive Ev
  | downloadStart (q : Quality)
  | compressCall (input output : String) (targetMB : ℚ)
  | uploadCall (path : String)
deriving DecidableEq

/-- Observable result of the compression stage: the Bool returned by
`compress_video` and the content of the compressed path afterwards. -/
structure CompressOutcome where
  success : Bool
  output : Option ℕ
deriving DecidableEq

/-- Line 349 and 368: `os.path.getsize(...) / (1024 * 1024)` (exact at these
magnitudes, so the float arithmetic is modelled by `ℚ`). -/
def sizeMB (bytes : ℕ) : ℚ := (bytes : ℚ) / (1024 * 1024)

/-- Line 363: `compressed_path = file_path.rsplit('.', 1)[0] + '_compressed.mp4'`. -/
def compressedPath (p : String) : String :=
  (let parts := p.splitOn "."
   if parts.length ≤ 1 then p
   else String.intercalate "." parts.dropLast) ++ "_compressed.mp4"

/-- Lines 207-314, `handle_url`: validate the URL, fetch metadata, store the
session, build the catalog, and offer it — or report.  `isYoutubeUrl` is
line 213's substring test; `url` stands for the cleaned URL.  When the
keyboard holds only the audio row (`len(keyboard) <= 1`, line 290) the
handler reports "No options found" WITHOUT removing the stored session. -/
def handle_url (st : BotState) (chat : ℕ) (isYoutubeUrl : Bool)
    (fetched : Option VideoInfo) (url : String) : BotState × Outcome :=
  if !isYoutubeUrl then (st, .invalidUrl)
  else
    match fetched with
    | none => (st, .metadataUnavailable)
    | some info =>
        let st' : BotState :=
          { st with sessions :=
              insertA st.sessions chat ⟨url, info.title, info.formats⟩ }
        if (buildVariantCatalog info.formats).length ≤ 1 then (st', .noOptions)
        else (st', .offered)

/-- Lines 405-439: upload the file at `path`; on success delete it and clear
the session (lines 438-439); a transport failure raises into the outer
`except`, which cleans nothing. -/
def uploadStage (st : BotState) (chat : ℕ) (path : String) (uploadOk : Bool)
    (tr : List Ev) : BotState × Outcome × List Ev :=
  if uploadOk then
    (⟨eraseA st.sessions chat, eraseA st.files path⟩, .delivered,
      tr ++ [.uploadCall path])
  else (st, .uploadFailed, tr ++ [.uploadCall path])

/-- Lines 317-443, `handle_quality_selection`: the download → size check →
conditional compression → upload pipeline of one quality selection. -/
def handle_quality_selection (st : BotState) (chat : ℕ) (q : Quality)
    (dl : Option (String × Option ℕ)) (cmp : CompressOutcome)
    (uploadOk : Bool) : BotState × Outcome × List Ev :=
  match lookupA st.sessions chat with
  | none => (st, .sessionExpired, [])
  | some _ =>
      let tr0 : List Ev := [.downloadStart q]
      match dl with
      | none => (st, .downloadFailed, tr0)
      | some (p, created) =>
          let files₁ := match created with
            | some b => insertA st.files p b
            | none => st.files
          match lookupA files₁ p with
          | none => ({ st with files := files₁ }, .downloadFailed, tr0)
          | some bytes =>
              if TELEGRAM_FILE_LIMIT_MB < sizeMB bytes then
                let cpath := compressedPath p
                let tr1 := tr0 ++ [.compressCall p cpath TARGET_COMPRESSED_SIZE_MB]
                let files₂ := match cmp.output with
                  | some cb => insertA files₁ cpath cb
                  | none => files₁
                match cmp.success, lookupA files₂ cpath with
                | true, some cb =>
                    let files₃ := eraseA files₂ p
                    if TELEGRAM_FILE_LIMIT_MB < sizeMB cb then
                      (⟨eraseA st.sessions chat, eraseA files₃ cpath⟩,
                        .stillTooLarge, tr1)
                    else
                      uploadStage ⟨st.sessions, files₃⟩ chat cpath uploadOk tr1
                | true, none =>
                    (⟨eraseA st.sessions chat, eraseA files₂ p⟩,
                      .compressionFailed, tr1)
                | false, _ =>
                    (⟨eraseA st.sessions chat, eraseA files₂ p⟩,
                      .compressionFailed, tr1)
              else
                uploadStage ⟨st.sessions, files₁⟩ chat p uploadOk tr0

/-! ## Retrieval Engine progress hook (src/main.py lines 446-468)

The hook closure is modelled as a fold over the sequence of yt-dlp progress
events, threading `progress_data['last_update']` (initially 0) and
collecting the notifications scheduled via `asyncio.create_task`. -/

/-- One yt-dlp progress callback dict, restricted to the keys the hook
reads; `downloading` is the test `d['status'] == 'downloading'`, `time` the
event-loop clock at the callback. -/
structure DlEvent where
  downloading : Bool
  time : ℚ
  downloaded : ℕ
  total_bytes : Option ℕ
  total_bytes_estimate : Option ℕ
deriving DecidableEq

/-- A scheduled progress notification: when it was emitted and the rendered
percentage. -/
structure Notification where
  time : ℚ
  percent : ℚ
deriving DecidableEq

/-- State threaded through the hook: `progress_data['last_update']` and the
notifications emitted so far. -/
structure HookState where
  last_update : ℚ
  sent : List Notification
deriving DecidableEq

/-- Line 458: `total = d.get('total_bytes') or d.get('total_bytes_estimate', 0)`. -/
def pyTotal (e : DlEvent) : ℕ :=
  match truthyN e.total_bytes with
  | some n => n
  | none => e.total_bytes_estimate.getD 0

/-- Lines 451-468: one activation of `progress_hook`. -/
def progress_hook (st : HookState) (e : DlEvent) : HookState :=
  if e.downloading then
    if 10 < e.time - st.last_update then
      let st' : HookState := { st with last_update := e.time }
      let total := pyTotal e
      if total ≠ 0 then
        { st' with sent := st'.sent ++
            [⟨e.time, (e.downloaded : ℚ) / (total : ℚ) * 100⟩] }
      else st'
    else st
  else st

/-- The notifications emitted over a whole download
(`progress_data = {'last_update': 0}`, line 449). -/
def runHook (evs : List DlEvent) : List Notification :=
  (evs.foldl progress_hook ⟨0, []⟩).sent

/-! ## Concrete fixtures used by witnesses and counterexamples -/

/-- A stored session for chat 0. -/
def sampleSession : Session :=
  ⟨"https://www.youtube.com/watch?v=abc", "title", []⟩

/-- A bot state holding exactly the chat-0 session and no files. -/
def sampleState : BotState := ⟨[(0, sampleSession)], []⟩

/-- Metadata whose raw format list yields no video variants. -/
def audioOnlyInfo : VideoInfo :=
  { title := "title"
    duration := 300
    formats := [{ vcodec := some "none", acodec := some "mp4a",
                  height := none, format_id := some "249",
                  filesize := some 100, filesize_approx := none,
                  ext := some "webm" }] }

/-! # Theorems -/

/-! ## Association-list lemmas -/

@[simp] theorem lookupA_nil {α β : Type} [DecidableEq α] (k : α) :
    lookupA ([] : List (α × β)) k = none := rfl

@[simp] theorem lookupA_cons {α β : Type} [DecidableEq α]
    (p : α × β) (l : List (α × β)) (k : α) :
    lookupA (p :: l) k = if p.1 = k then some p.2 else lookupA l k := rfl

theorem lookupA_append {α β : Type} [DecidableEq α]
    (l₁ l₂ : List (α × β)) (k : α) :
    lookupA (l₁ ++ l₂) k = (lookupA l₁ k).or (lookupA l₂ k) := by
  induction l₁ with
  | nil => simp
  | cons p l ih =>
      by_cases h : p.1 = k <;> simp [h, ih]

@[simp] theorem lookupA_eraseA_self {α β : Type} [DecidableEq α]
    (l : List (α × β)) (k : α) :
    lookupA (eraseA l k) k = none := by
  induction l with
  | nil => rfl
  | cons p l ih =>
      by_cases h : p.1 = k <;> simp [eraseA, h, ih]

theorem lookupA_eraseA_ne {α β : Type} [DecidableEq α]
    (l : List (α × β)) (k k' : α) (h : k' ≠ k) :
    lookupA (eraseA l k) k' = lookupA l k' := by
  induction l with
  | nil => rfl
  | cons p l ih =>
      by_cases hp : p.1 = k
      · have hne : p.1 ≠ k' := by rw [hp]; exact fun hc => h hc.symm
        simp only [eraseA, if_pos hp, lookupA_cons, if_neg hne, ih]
      · simp only [eraseA, if_neg hp, lookupA_cons, ih]

@[simp] theorem lookupA_insertA_self {α β : Type} [DecidableEq α]
    (l : List (α × β)) (k : α) (v : β) :
    lookupA (insertA l k v) k = some v := by
  simp [insertA, lookupA_append, lookupA]

theorem lookupA_insertA_ne {α β : Type} [DecidableEq α]
    (l : List (α × β)) (k k' : α) (v : β) (h : k' ≠ k) :
    lookupA (insertA l k v) k' = lookupA l k' := by
  have hne : ¬(k = k') := fun hc => h hc.symm
  simp [insertA, lookupA_append, lookupA, hne, lookupA_eraseA_ne l k k' h]

/-- Erasing a key and then possibly another key leaves the first key
unbound, whether or not the two coincide. -/
@[simp] theorem lookupA_eraseA_eraseA {α β : Type} [DecidableEq α]
    (l : List (α × β)) (k k' : α) :
    lookupA (eraseA (eraseA l k) k') k = none := by
  by_cases h : k = k'
  · rw [h]
    exact lookupA_eraseA_self _ _
  · rw [lookupA_eraseA_ne _ _ _ h]
    exact lookupA_eraseA_self _ _

theorem lookupA_isSome_iff {α β : Type} [DecidableEq α]
    (l : List (α × β)) (k : α) :
    (lookupA l k).isSome ↔ k ∈ l.map Prod.fst := by
  induction l with
  | nil => simp
  | cons p l ih =>
      by_cases hp : p.1 = k
      · simp [hp]
      · have : ¬ k = p.1 := fun hc => hp hc.symm
        simp only [lookupA_cons, if_neg hp, List.map_cons, List.mem_cons, ih,
          this, false_or]

theorem or_some_left {α : Type} (a : α) (o : Option α) :
    (some a).or o = some a := rfl

/-! ## Claim C2 — bitrate calculation -/

/-- Claim C2: for positive duration and target size the calculator computes
`videoBitrateKbps = max(floor(targetSizeMB * 8192 / durationSeconds) - 128, 100)`
(so in particular at least 100), and at duration 600s / target 45MB it yields
total bitrate 614 and video bitrate 486. -/
theorem bitrate_formula (duration target_size_mb : ℚ)
    (hd : 0 < duration) (ht : 0 < target_size_mb) :
    video_bitrate target_size_mb duration =
      max (⌊target_size_mb * 8192 / duration⌋ - 128) 100
    ∧ 100 ≤ video_bitrate target_size_mb duration
    ∧ target_total_bitrate 45 600 = 614
    ∧ video_bitrate 45 600 = 486 := by
  have hq : (0 : ℚ) ≤ target_size_mb * 8192 / duration := by positivity
  have h614 : target_total_bitrate 45 600 = 614 := by
    have : ((45 : ℚ) * 8192 / 600) = 3072 / 5 := by norm_num
    rw [target_total_bitrate, pyInt, this, if_pos (by norm_num)]
    rw [Int.floor_eq_iff]
    norm_num
  refine ⟨?_, le_max_right _ _, h614, ?_⟩
  · rw [video_bitrate, target_total_bitrate, pyInt, if_pos hq, audio_bitrate]
  · rw [video_bitrate, h614, audio_bitrate]
    norm_num

/-- Witness for claim C2 at duration 600, target 45. -/
theorem bitrate_formula_witness :
    (0 : ℚ) < 600 ∧ (0 : ℚ) < 45 ∧
      (video_bitrate 45 600 = max (⌊(45 : ℚ) * 8192 / 600⌋ - 128) 100
       ∧ 100 ≤ video_bitrate 45 600
       ∧ target_total_bitrate 45 600 = 614
       ∧ video_bitrate 45 600 = 486) :=
  ⟨by norm_num, by norm_num, bitrate_formula 600 45 (by norm_num) (by norm_num)⟩

/-! ## Claim C7 — transcode engine result -/

/-- Counterexample to claim C7 as stated: with a probed duration of -1
(non-positive, which the claim says must yield `false`) and a successful
encoder run, `compress_video` returns `true` — the line-82 guard
`if not duration` rejects only `None` and `0.0`, not negative values; and
with exit code 0 but no output file (the claim says exit 0 returns `true`)
it returns `false`, because the `os.path.getsize` call on line 123 raises
and is caught. -/
theorem compress_video_counterexample :
    compress_video (some (-1)) (.completed 0 (some 1000)) = true
    ∧ compress_video (some 10) (.completed 0 none) = false := by
  constructor <;> rfl

/-- Claim C7 (amended): `compress_video` returns a Bool and never raises
(every arm of its `try` returns), performs no retry (a single encoder
oracle determines the result), and returns `true` exactly when the duration
probe yields a value other than `None`/`0.0` and the encoder exits with
code 0 leaving a readable output file; in every other case — probe failure,
zero duration, non-zero exit, missing output, the 600s timeout, or any other
exception — it returns `false`. -/
theorem compress_video_result (probeDuration : Option ℚ) (enc : EncoderResult) :
    compress_video probeDuration enc = true ↔
      ((∃ d, probeDuration = some d ∧ d ≠ 0)
        ∧ ∃ sz, enc = .completed 0 (some sz)) := by
  cases probeDuration with
  | none => simp [compress_video]
  | some d =>
      by_cases hd : d = 0
      · simp [compress_video, hd]
      · cases enc with
        | timedOut => simp [compress_video, hd]
        | raised => simp [compress_video, hd]
        | completed rc osize =>
            by_cases hrc : rc = 0
            · cases osize <;> simp [compress_video, hd, hrc]
            · simp [compress_video, hd, hrc]

/-- Witness for claim C7 (amended) at a concrete successful run. -/
theorem compress_video_result_witness :
    compress_video (some 10) (.completed 0 (some 5)) = true ↔
      ((∃ d, (some (10 : ℚ)) = some d ∧ d ≠ 0)
        ∧ ∃ sz, (EncoderResult.completed 0 (some 5))
            = EncoderResult.completed 0 (some sz)) :=
  compress_video_result (some 10) (.completed 0 (some 5))

/-! ## Variant-catalog lemmas -/

theorem video_formats_lookup_aux (fmts : List Format)
    (acc : List (ℕ × FmtEntry)) (h : ℕ) :
    lookupA (fmts.foldl addFormat acc) h =
      (lookupA acc h).or ((fmts.find? (matchesHeight h)).map mkEntry) := by
  induction fmts generalizing acc with
  | nil => simp
  | cons f fs ih =>
      rw [List.foldl_cons, ih]
      by_cases hk : keeps f = true
      · cases hth : truthyHeight f with
        | none =>
            have hm : ¬ matchesHeight h f = true := by
              simp [matchesHeight, hth]
            rw [List.find?_cons_of_neg _ hm]
            simp only [addFormat, hk, if_true, hth]
        | some h' =>
            by_cases hhh : h' = h
            · subst hhh
              have hm : matchesHeight h' f = true := by
                simp [matchesHeight, hk, hth]
              rw [List.find?_cons_of_pos _ hm]
              cases hacc : lookupA acc h' with
              | none =>
                  simp only [addFormat, hk, if_true, hth, hacc,
                    lookupA_append, Option.none_or]
                  simp [lookupA, or_some_left]
              | some e =>
                  simp only [addFormat, hk, if_true, hth, hacc, or_some_left]
            · have hm : ¬ matchesHeight h f = true := by
                simp [matchesHeight, hth, hhh]
              rw [List.find?_cons_of_neg _ hm]
              cases hacc : lookupA acc h' with
              | none =>
                  have hne : lookupA (acc ++ [(h', mkEntry f)]) h =
                      lookupA acc h := by
                    simp [lookupA_append, lookupA, hhh]
                  simp only [addFormat, hk, if_true, hth, hacc, hne]
              | some e =>
                  simp only [addFormat, hk, if_true, hth, hacc]
      · have hk' : keeps f = false := by simpa using hk
        have hm : ¬ matchesHeight h f = true := by simp [matchesHeight, hk']
        rw [List.find?_cons_of_neg _ hm]
        simp only [addFormat, hk', Bool.false_eq_true, if_false]

/-- First-seen-wins characterisation of the `video_formats` dict. -/
theorem video_formats_lookup (fmts : List Format) (h : ℕ) :
    lookupA (video_formats fmts) h =
      (fmts.find? (matchesHeight h)).map mkEntry := by
  rw [video_formats, video_formats_lookup_aux]
  simp

theorem video_formats_keys_nodup_aux (fmts : List Format)
    (acc : List (ℕ × FmtEntry)) (hacc : (acc.map Prod.fst).Nodup) :
    ((fmts.foldl addFormat acc).map Prod.fst).Nodup := by
  induction fmts generalizing acc with
  | nil => simpa using hacc
  | cons f fs ih =>
      rw [List.foldl_cons]
      refine ih _ ?_
      by_cases hk : keeps f = true
      · cases hth : truthyHeight f with
        | none => simpa [addFormat, hk, hth] using hacc
        | some h' =>
            cases hl : lookupA acc h' with
            | none =>
                have hnotin : h' ∉ acc.map Prod.fst := by
                  rw [← lookupA_isSome_iff, hl]
                  simp
                simp only [addFormat, hk, if_true, hth, hl, List.map_append,
                  List.map_cons, List.map_nil]
                refine List.Nodup.append hacc (by simp) ?_
                intro a ha hmem
                simp only [List.mem_singleton] at hmem
                exact hnotin (hmem ▸ ha)
            | some e => simpa [addFormat, hk, hth, hl] using hacc
      · have hk' : keeps f = false := by simpa using hk
        simpa [addFormat, hk'] using hacc

theorem video_formats_keys_nodup (fmts : List Format) :
    (((video_formats fmts)).map Prod.fst).Nodup :=
  video_formats_keys_nodup_aux fmts [] (by simp)

theorem sorted_qualities_nodup (fmts : List Format) :
    (sorted_qualities fmts).Nodup :=
  (List.perm_insertionSort _ _).symm.nodup (video_formats_keys_nodup fmts)

theorem sorted_qualities_mem (fmts : List Format) (h : ℕ) :
    h ∈ sorted_qualities fmts ↔ h ∈ (video_formats fmts).map Prod.fst :=
  (List.perm_insertionSort _ _).mem_iff

theorem sorted_qualities_strict_desc (fmts : List Format) :
    (sorted_qualities fmts).Chain' (fun a b => a > b) := by
  have hs : (sorted_qualities fmts).Sorted (fun a b => a ≥ b) :=
    List.sorted_insertionSort _ _
  have hnd : (sorted_qualities fmts).Nodup := sorted_qualities_nodup fmts
  exact List.Pairwise.chain'
    ((hs.and hnd).imp (fun hab => lt_of_le_of_ne hab.1.le (Ne.symm hab.2)))

theorem catalogHeights_catalog (fmts : List Format) :
    catalogHeights (buildVariantCatalog fmts) = sorted_qualities fmts := by
  rw [buildVariantCatalog, catalogHeights, List.filterMap_append]
  have h2 : List.filterMap
      (fun v => match v with | Variant.video h _ => some h | Variant.audio => none)
      [Variant.audio] = [] := rfl
  rw [h2, List.append_nil, List.filterMap_filterMap]
  have : ∀ h ∈ sorted_qualities fmts,
      ((lookupA (video_formats fmts) h).map (Variant.video h)).bind
        (fun v => match v with
          | Variant.video h _ => some h | Variant.audio => none) = some h := by
    intro h hh
    have : (lookupA (video_formats fmts) h).isSome := by
      rw [lookupA_isSome_iff]
      exact (sorted_qualities_mem fmts h).mp hh
    cases he : lookupA (video_formats fmts) h with
    | none => rw [he] at this; simp at this
    | some e => simp [he]
  calc List.filterMap _ (sorted_qualities fmts)
      = List.filterMap some (sorted_qualities fmts) :=
        List.filterMap_congr this
    _ = sorted_qualities fmts := List.filterMap_some _

/-- Membership of a video row in the catalog, reduced to the dict. -/
theorem mem_catalog_iff (fmts : List Format) (h : ℕ) (e : FmtEntry) :
    Variant.video h e ∈ buildVariantCatalog fmts ↔
      lookupA (video_formats fmts) h = some e := by
  rw [buildVariantCatalog, List.mem_append]
  constructor
  · rintro (hv | hv)
    · rcases List.mem_filterMap.mp hv with ⟨h', hh', hmap⟩
      rcases Option.map_eq_some'.mp hmap with ⟨e', he', heq⟩
      cases heq
      exact he'
    · simp at hv
  · intro he
    left
    refine List.mem_filterMap.mpr ⟨h, ?_, by rw [he]; rfl⟩
    rw [sorted_qualities_mem, ← lookupA_isSome_iff, he]
    rfl

/-! ## Claim C4 — variant catalog -/

/-- Counterexample to claim C4 as stated: `zeroHeightFormat` carries both a
video and an audio stream and has a non-null resolution height (0), yet the
resulting catalog contains no entry for it — line 254's guard is the Python
truthiness test `if height`, which skips height `0` exactly like a null
height, so "keeps exactly one entry per non-null resolution height" fails. -/
theorem catalog_zero_height_counterexample :
    (zeroHeightFormat.vcodec ≠ some "none"
      ∧ zeroHeightFormat.acodec ≠ some "none"
      ∧ zeroHeightFormat.height = some 0)
    ∧ buildVariantCatalog [zeroHeightFormat] = [Variant.audio] := by
  exact ⟨⟨by decide, by decide, rfl⟩, by decide⟩

/-- Claim C4 (amended): the catalog keeps only formats carrying both a video
and an audio stream, keeps exactly one entry per truthy resolution height —
non-null AND nonzero, since line 254's `if height` is a Python truthiness
test — with the first-seen format for that height winning and its recorded
value `mkEntry` (format id, the filesize fallback chain, ext defaulting to
"mp4"); the resulting heights are strictly descending and the synthetic
audio-only entry is always appended last.  The spec's example
[1080, 720, 1080, 480] yields exactly [1080 (first entry), 720, 480] plus
the audio entry. -/
theorem catalog_spec (fmts : List Format) :
    ((∀ h : ℕ, (∃ e, Variant.video h e ∈ buildVariantCatalog fmts) ↔
        ∃ f ∈ fmts, keeps f = true ∧ truthyHeight f = some h)
    ∧ (∀ h e, Variant.video h e ∈ buildVariantCatalog fmts →
        ∃ f, fmts.find? (matchesHeight h) = some f ∧ e = mkEntry f))
    ∧ (catalogHeights (buildVariantCatalog fmts)).Chain' (fun a b => a > b)
    ∧ (∃ pre, buildVariantCatalog fmts = pre ++ [Variant.audio]
        ∧ ∀ v ∈ pre, v ≠ Variant.audio)
    ∧ buildVariantCatalog exampleFormats =
        [Variant.video 1080 ⟨some "hi1080", 900, "mp4"⟩,
         Variant.video 720 ⟨some "mid720", 500, "webm"⟩,
         Variant.video 480 ⟨some "lo480", 0, "mp4"⟩,
         Variant.audio] := by
  refine ⟨⟨?_, ?_⟩, ?_, ?_, by decide⟩
  · intro h
    constructor
    · rintro ⟨e, he⟩
      have := (mem_catalog_iff fmts h e).mp he
      rw [video_formats_lookup] at this
      rcases Option.map_eq_some'.mp this with ⟨f, hf, _⟩
      have hmem := List.mem_of_find?_eq_some hf
      have hp := List.find?_some hf
      rw [matchesHeight, Bool.and_eq_true, beq_iff_eq] at hp
      exact ⟨f, hmem, hp.1, hp.2⟩
    · rintro ⟨f, hmem, hk, hth⟩
      have : (fmts.find? (matchesHeight h)).isSome := by
        rw [List.find?_isSome]
        exact ⟨f, hmem, by rw [matchesHeight, Bool.and_eq_true, beq_iff_eq]
                           exact ⟨hk, hth⟩⟩
      rcases Option.isSome_iff_exists.mp this with ⟨f', hf'⟩
      refine ⟨mkEntry f', ?_⟩
      rw [mem_catalog_iff, video_formats_lookup, hf']
      rfl
  · intro h e he
    have := (mem_catalog_iff fmts h e).mp he
    rw [video_formats_lookup] at this
    rcases Option.map_eq_some'.mp this with ⟨f, hf, heq⟩
    exact ⟨f, hf, heq.symm⟩
  · rw [catalogHeights_catalog]
    exact sorted_qualities_strict_desc fmts
  · refine ⟨_, rfl, ?_⟩
    intro v hv
    rcases List.mem_filterMap.mp hv with ⟨h, _, hmap⟩
    rcases Option.map_eq_some'.mp hmap with ⟨e, _, heq⟩
    rw [← heq]
    intro hc
    cases hc

/-- Witness for claim C4 (amended) at the example catalog's 720p row. -/
theorem catalog_spec_witness :
    ∃ f, exampleFormats.find? (matchesHeight 720) = some f
      ∧ (⟨some "mid720", 500, "webm"⟩ : FmtEntry) = mkEntry f :=
  (catalog_spec exampleFormats).1.2 720 ⟨some "mid720", 500, "webm"⟩
    (by decide)

/-! ## Claim C8 — selection without an active session -/

/-- Claim C8: a quality selection for a requester with no entry in the
session store reports `SessionExpired` and returns immediately (line 324-326):
the state — session store and files — is unchanged, and the trace is empty,
so no download attempt (nor any later stage) is made, for every possible
oracle outcome. -/
theorem session_expired_no_attempt (st : BotState) (chat : ℕ) (q : Quality)
    (dl : Option (String × Option ℕ)) (cmp : CompressOutcome)
    (uploadOk : Bool) (h : lookupA st.sessions chat = none) :
    handle_quality_selection st chat q dl cmp uploadOk =
      (st, .sessionExpired, []) := by
  simp only [handle_quality_selection, h]

/-- Witness for claim C8 on the empty store. -/
theorem session_expired_no_attempt_witness :
    handle_quality_selection ⟨[], []⟩ 7 (.video 720)
        (some ("a.mp4", some 5)) ⟨true, some 3⟩ true
      = (⟨[], []⟩, .sessionExpired, []) :=
  session_expired_no_attempt ⟨[], []⟩ 7 (.video 720)
    (some ("a.mp4", some 5)) ⟨true, some 3⟩ true rfl

/-! ## Claim C3 — size-ceiling routing -/

/-- Claim C3: after a successful download of `bytes` bytes to `p`, the
compression stage is invoked iff the size strictly exceeds the 50MB ceiling
(line 353); every compression invocation has input `p`, output the derived
compressed path, and target `TARGET_COMPRESSED_SIZE_MB = 45`; and a file at
or below the ceiling goes straight to upload with no transcoding call. -/
theorem size_ceiling_routing (st : BotState) (chat : ℕ) (q : Quality)
    (p : String) (bytes : ℕ) (cmp : CompressOutcome) (uploadOk : Bool)
    (s : Session) (hs : lookupA st.sessions chat = some s) :
    ((∃ i o t, Ev.compressCall i o t ∈
        (handle_quality_selection st chat q (some (p, some bytes)) cmp
          uploadOk).2.2)
      ↔ TELEGRAM_FILE_LIMIT_MB < sizeMB bytes)
    ∧ (∀ i o t, Ev.compressCall i o t ∈
        (handle_quality_selection st chat q (some (p, some bytes)) cmp
          uploadOk).2.2 →
        i = p ∧ o = compressedPath p ∧ t = TARGET_COMPRESSED_SIZE_MB)
    ∧ (¬ TELEGRAM_FILE_LIMIT_MB < sizeMB bytes →
        (handle_quality_selection st chat q (some (p, some bytes)) cmp
          uploadOk).2.2
          = [.downloadStart q, .uploadCall p]) := by
  by_cases hbig : TELEGRAM_FILE_LIMIT_MB < sizeMB bytes
  · refine ⟨⟨fun _ => hbig, fun _ => ⟨p, compressedPath p,
      TARGET_COMPRESSED_SIZE_MB, ?_⟩⟩, ?_, fun hn => absurd hbig hn⟩
    · simp only [handle_quality_selection, hs, lookupA_insertA_self,
        if_pos hbig, uploadStage]
      split <;> (try split) <;> (try split) <;> simp
    · intro i o t hmem
      simp only [handle_quality_selection, hs, lookupA_insertA_self,
        if_pos hbig, uploadStage] at hmem
      split at hmem <;> (try split at hmem) <;> (try split at hmem) <;>
        simp_all
  · refine ⟨⟨?_, fun h => absurd h hbig⟩, ?_, ?_⟩
    · rintro ⟨i, o, t, hmem⟩
      simp only [handle_quality_selection, hs, lookupA_insertA_self,
        if_neg hbig, uploadStage] at hmem
      split at hmem <;> simp at hmem
    · intro i o t hmem
      exfalso
      simp only [handle_quality_selection, hs, lookupA_insertA_self,
        if_neg hbig, uploadStage] at hmem
      split at hmem <;> simp at hmem
    · intro _
      simp only [handle_quality_selection, hs, lookupA_insertA_self,
        if_neg hbig, uploadStage]
      split <;> rfl

/-- Witness for claim C3: a 49MB file goes straight to upload and a 51MB
file triggers a compression call. -/
theorem size_ceiling_routing_witness :
    ((handle_quality_selection sampleState 0 (.video 720)
        (some ("v.mp4", some (49 * 1048576))) ⟨true, some 1000⟩ true).2.2
      = [.downloadStart (.video 720), .uploadCall "v.mp4"])
    ∧ (∃ i o t, Ev.compressCall i o t ∈
        (handle_quality_selection sampleState 0 (.video 720)
          (some ("v.mp4", some (51 * 1048576))) ⟨true, some 1000⟩ true).2.2) :=
  ⟨(size_ceiling_routing sampleState 0 (.video 720) "v.mp4" (49 * 1048576)
      ⟨true, some 1000⟩ true sampleSession rfl).2.2
      (by norm_num [sizeMB, TELEGRAM_FILE_LIMIT_MB]),
   (size_ceiling_routing sampleState 0 (.video 720) "v.mp4" (51 * 1048576)
      ⟨true, some 1000⟩ true sampleSession rfl).1.mpr
      (by norm_num [sizeMB, TELEGRAM_FILE_LIMIT_MB])⟩

/-! ## Claim C5 — StillTooLarge enforcement -/

/-- Claim C5: when compression succeeds (`compress_video` returned True and
the compressed file exists, of `cb` bytes) but the compressed size still
exceeds the ceiling, the run terminates in `StillTooLarge`, the compressed
file has been deleted (line 387) and the requester's session entry removed
(line 388). -/
theorem still_too_large_cleanup (st : BotState) (chat : ℕ) (q : Quality)
    (p : String) (bytes cb : ℕ) (uploadOk : Bool) (s : Session)
    (hs : lookupA st.sessions chat = some s)
    (hbig : TELEGRAM_FILE_LIMIT_MB < sizeMB bytes)
    (hcbig : TELEGRAM_FILE_LIMIT_MB < sizeMB cb) :
    (handle_quality_selection st chat q (some (p, some bytes)) ⟨true, some cb⟩
        uploadOk).2.1 = .stillTooLarge
    ∧ lookupA (handle_quality_selection st chat q (some (p, some bytes))
        ⟨true, some cb⟩ uploadOk).1.files (compressedPath p) = none
    ∧ lookupA (handle_quality_selection st chat q (some (p, some bytes))
        ⟨true, some cb⟩ uploadOk).1.sessions chat = none := by
  simp only [handle_quality_selection, hs, lookupA_insertA_self,
    if_pos hbig, if_pos hcbig]
  exact ⟨by trivial, lookupA_eraseA_self _ _, lookupA_eraseA_self _ _⟩

/-- Witness for claim C5: an 80MB download compressed to a 52MB file. -/
theorem still_too_large_cleanup_witness :
    (handle_quality_selection sampleState 0 (.video 720)
        (some ("v.mp4", some (80 * 1048576))) ⟨true, some (52 * 1048576)⟩
        true).2.1 = .stillTooLarge
    ∧ lookupA (handle_quality_selection sampleState 0 (.video 720)
        (some ("v.mp4", some (80 * 1048576))) ⟨true, some (52 * 1048576)⟩
        true).1.files (compressedPath "v.mp4") = none
    ∧ lookupA (handle_quality_selection sampleState 0 (.video 720)
        (some ("v.mp4", some (80 * 1048576))) ⟨true, some (52 * 1048576)⟩
        true).1.sessions 0 = none :=
  still_too_large_cleanup sampleState 0 (.video 720) "v.mp4"
    (80 * 1048576) (52 * 1048576) true sampleSession rfl
    (by norm_num [sizeMB, TELEGRAM_FILE_LIMIT_MB])
    (by norm_num [sizeMB, TELEGRAM_FILE_LIMIT_MB])

/-! ## Claim C6 — Compressing step -/

/-- Claim C6: in the compression stage (entered because the download of
`bytes` bytes exceeded the ceiling): if the engine reported failure, or it
reported success but no file exists at the compressed path (no output and no
pre-existing file there), the run terminates in `CompressionFailed` with the
original file deleted (line 401) and the session cleared (line 402); if the
engine succeeded and the output exists, the original is deleted (line 372)
and the compressed file adopted with its own size — any upload happens on
the compressed path only, the original is gone from the final state, and the
subsequent check yields `StillTooLarge` exactly when the compressed size
still exceeds the ceiling. -/
theorem compressing_stage (st : BotState) (chat : ℕ) (q : Quality)
    (p : String) (bytes : ℕ) (cmp : CompressOutcome) (uploadOk : Bool)
    (s : Session) (hs : lookupA st.sessions chat = some s)
    (hbig : TELEGRAM_FILE_LIMIT_MB < sizeMB bytes) :
    (cmp.success = false →
      (handle_quality_selection st chat q (some (p, some bytes)) cmp
          uploadOk).2.1 = .compressionFailed
      ∧ lookupA (handle_quality_selection st chat q (some (p, some bytes))
          cmp uploadOk).1.files p = none
      ∧ lookupA (handle_quality_selection st chat q (some (p, some bytes))
          cmp uploadOk).1.sessions chat = none)
    ∧ (cmp.success = true → cmp.output = none →
        compressedPath p ≠ p → lookupA st.files (compressedPath p) = none →
        (handle_quality_selection st chat q (some (p, some bytes)) cmp
            uploadOk).2.1 = .compressionFailed
        ∧ lookupA (handle_quality_selection st chat q (some (p, some bytes))
            cmp uploadOk).1.files p = none
        ∧ lookupA (handle_quality_selection st chat q (some (p, some bytes))
            cmp uploadOk).1.sessions chat = none)
    ∧ (∀ cb, cmp.success = true → cmp.output = some cb →
        lookupA (handle_quality_selection st chat q (some (p, some bytes))
          cmp uploadOk).1.files p = none
        ∧ (∀ x, Ev.uploadCall x ∈
            (handle_quality_selection st chat q (some (p, some bytes)) cmp
              uploadOk).2.2 → x = compressedPath p)
        ∧ ((handle_quality_selection st chat q (some (p, some bytes)) cmp
              uploadOk).2.1 = .stillTooLarge
            ↔ TELEGRAM_FILE_LIMIT_MB < sizeMB cb)) := by
  obtain ⟨suc, out⟩ := cmp
  refine ⟨?_, ?_, ?_⟩
  · rintro rfl
    cases out with
    | none =>
        simp only [handle_quality_selection, hs, lookupA_insertA_self,
          if_pos hbig]
        exact ⟨by trivial, lookupA_eraseA_self _ _, lookupA_eraseA_self _ _⟩
    | some cb =>
        simp only [handle_quality_selection, hs, lookupA_insertA_self,
          if_pos hbig]
        exact ⟨by trivial, lookupA_eraseA_self _ _, lookupA_eraseA_self _ _⟩
  · rintro rfl rfl hne hstale
    have hnofile : lookupA (insertA st.files p bytes) (compressedPath p)
        = none := by
      rw [lookupA_insertA_ne _ _ _ _ hne]
      exact hstale
    simp only [handle_quality_selection, hs, lookupA_insertA_self,
      if_pos hbig, hnofile]
    exact ⟨by trivial, lookupA_eraseA_self _ _, lookupA_eraseA_self _ _⟩
  · rintro cb rfl rfl
    simp only [handle_quality_selection, hs, lookupA_insertA_self,
      if_pos hbig, uploadStage]
    by_cases hcbig : TELEGRAM_FILE_LIMIT_MB < sizeMB cb
    · simp only [if_pos hcbig]
      refine ⟨lookupA_eraseA_eraseA _ _ _, ?_, by simp [hcbig]⟩
      intro x hx
      simp at hx
    · simp only [if_neg hcbig]
      cases uploadOk with
      | true =>
          simp only [if_pos rfl]
          refine ⟨lookupA_eraseA_eraseA _ _ _, ?_, by simp [hcbig]⟩
          intro x hx
          simp at hx
          exact hx
      | false =>
          rw [if_neg Bool.false_ne_true]
          refine ⟨lookupA_eraseA_self _ _, ?_, by simp [hcbig]⟩
          intro x hx
          simp at hx
          exact hx

/-- Witness for claim C6: engine failure on an 80MB download deletes the
original and clears the session. -/
theorem compressing_stage_witness :
    (handle_quality_selection sampleState 0 (.video 720)
        (some ("v.mp4", some (80 * 1048576))) ⟨false, none⟩ true).2.1
      = .compressionFailed
    ∧ lookupA (handle_quality_selection sampleState 0 (.video 720)
        (some ("v.mp4", some (80 * 1048576))) ⟨false, none⟩ true).1.files
        "v.mp4" = none
    ∧ lookupA (handle_quality_selection sampleState 0 (.video 720)
        (some ("v.mp4", some (80 * 1048576))) ⟨false, none⟩ true).1.sessions
        0 = none :=
  (compressing_stage sampleState 0 (.video 720) "v.mp4" (80 * 1048576)
    ⟨false, none⟩ true sampleSession rfl
    (by norm_num [sizeMB, TELEGRAM_FILE_LIMIT_MB])).1 rfl

/-! ## Claim C1 — cleanup on terminal failures -/

/-- Counterexample to claim C1 as stated: a failed download (line 344-346)
reports `DownloadFailed` and returns WITHOUT touching `user_video_info`, so
the requester's key is still present in the session store after the
failure; likewise the no-usable-variants report of `handle_url`
(line 290-295) happens after the session was stored (line 242) and does not
remove it. -/
theorem failure_cleanup_counterexample :
    ((handle_quality_selection sampleState 0 (.video 720) none ⟨false, none⟩
        true).2.1 = .downloadFailed
      ∧ lookupA (handle_quality_selection sampleState 0 (.video 720) none
          ⟨false, none⟩ true).1.sessions 0 = some sampleSession)
    ∧ ((handle_url ⟨[], []⟩ 0 true (some audioOnlyInfo) "u").2 = .noOptions
      ∧ lookupA (handle_url ⟨[], []⟩ 0 true
          (some audioOnlyInfo) "u").1.sessions 0
        = some ⟨"u", "title", audioOnlyInfo.formats⟩) := by
  exact ⟨⟨rfl, rfl⟩, ⟨by decide, by decide⟩⟩

/-- Claim C1 (amended): only the `CompressionFailed` and `StillTooLarge`
terminal failures delete the file the pipeline holds (the downloaded file,
and for `StillTooLarge` also the compressed file) and remove the requester's
session entry before reporting; the `DownloadFailed` failure leaves the
session store unchanged (the requester's key survives), and the
no-usable-variants outcome of `handle_url` stores the session and reports
without removing it. -/
theorem failure_cleanup_scope (st : BotState) (chat : ℕ) (q : Quality)
    (dl : Option (String × Option ℕ)) (cmp : CompressOutcome)
    (uploadOk : Bool) :
    (((handle_quality_selection st chat q dl cmp uploadOk).2.1
          = .compressionFailed
        ∨ (handle_quality_selection st chat q dl cmp uploadOk).2.1
          = .stillTooLarge →
        lookupA (handle_quality_selection st chat q dl cmp
          uploadOk).1.sessions chat = none
        ∧ ∀ p created, dl = some (p, created) →
            lookupA (handle_quality_selection st chat q dl cmp
              uploadOk).1.files p = none)
      ∧ ((handle_quality_selection st chat q dl cmp uploadOk).2.1
            = .stillTooLarge →
          ∀ p created, dl = some (p, created) →
            lookupA (handle_quality_selection st chat q dl cmp
              uploadOk).1.files (compressedPath p) = none)
      ∧ ((handle_quality_selection st chat q dl cmp uploadOk).2.1
            = .downloadFailed →
          (handle_quality_selection st chat q dl cmp uploadOk).1.sessions
            = st.sessions))
    ∧ (∀ st' chat' fetched url,
        (handle_url st' chat' true fetched url).2 = .noOptions →
          lookupA (handle_url st' chat' true fetched url).1.sessions chat'
            ≠ none) := by
  constructor
  · simp only [handle_quality_selection, uploadStage]
    repeat' split
    all_goals
      refine ⟨?_, ?_, ?_⟩ <;> intro hout <;> simp_all
  · intro st' chat' fetched url hno
    cases fetched with
    | none => simp [handle_url] at hno
    | some info =>
        by_cases hlen : (buildVariantCatalog info.formats).length ≤ 1
        · simp [handle_url, hlen, lookupA_insertA_self]
        · simp [handle_url, hlen] at hno

/-- Witness for claim C1 (amended), on a compression failure and a
no-usable-variants submission. -/
theorem failure_cleanup_scope_witness :
    (lookupA (handle_quality_selection sampleState 0 (.video 720)
        (some ("v.mp4", some (80 * 1048576))) ⟨false, none⟩ true).1.sessions 0
      = none)
    ∧ lookupA (handle_url ⟨[], []⟩ 3 true
        (some audioOnlyInfo) "u").1.sessions 3 ≠ none := by
  have hbig : TELEGRAM_FILE_LIMIT_MB < sizeMB (80 * 1048576) := by
    norm_num [sizeMB, TELEGRAM_FILE_LIMIT_MB]
  have hout : (handle_quality_selection sampleState 0 (.video 720)
      (some ("v.mp4", some (80 * 1048576))) ⟨false, none⟩ true).2.1
      = .compressionFailed := by
    simp only [handle_quality_selection, uploadStage]
    rw [show lookupA sampleState.sessions 0 = some sampleSession from rfl]
    simp only [lookupA_insertA_self, if_pos hbig]
  exact ⟨((failure_cleanup_scope sampleState 0 (.video 720)
      (some ("v.mp4", some (80 * 1048576))) ⟨false, none⟩ true).1.1
      (Or.inl hout)).1,
    (failure_cleanup_scope sampleState 0 (.video 720)
      (some ("v.mp4", some (80 * 1048576))) ⟨false, none⟩ true).2
      ⟨[], []⟩ 3 (some audioOnlyInfo) "u" (by decide)⟩

/-! ## Claim C9 — no-usable-variants keeps the session alive -/

/-- Claim C9: when metadata fetch succeeds but the catalog holds no video
variant (only the audio row, `len(keyboard) <= 1`), `handle_url` reports
`noOptions` with the session already stored and not removed; consequently
any later quality selection by the same requester finds an active session —
it never reports `SessionExpired` and always proceeds to a download
attempt. -/
theorem no_options_keeps_session (st : BotState) (chat : ℕ)
    (info : VideoInfo) (url : String)
    (hempty : (buildVariantCatalog info.formats).length ≤ 1) :
    (handle_url st chat true (some info) url).2 = .noOptions
    ∧ lookupA (handle_url st chat true (some info) url).1.sessions chat
        = some ⟨url, info.title, info.formats⟩
    ∧ (∀ q dl cmp uploadOk,
        (handle_quality_selection (handle_url st chat true (some info) url).1
          chat q dl cmp uploadOk).2.1 ≠ .sessionExpired)
    ∧ (∀ q dl cmp uploadOk, Ev.downloadStart q ∈
        (handle_quality_selection (handle_url st chat true (some info) url).1
          chat q dl cmp uploadOk).2.2) := by
  have hres : handle_url st chat true (some info) url =
      ({ st with sessions :=
          insertA st.sessions chat ⟨url, info.title, info.formats⟩ },
        .noOptions) := by
    simp [handle_url, hempty]
  rw [hres]
  refine ⟨rfl, by simp, ?_, ?_⟩
  · intro q dl cmp uploadOk
    simp only [handle_quality_selection, lookupA_insertA_self, uploadStage]
    repeat' split
    all_goals simp
  · intro q dl cmp uploadOk
    simp only [handle_quality_selection, lookupA_insertA_self, uploadStage]
    repeat' split
    all_goals simp

/-- Witness for claim C9 on a metadata result with only an audio-only
format. -/
theorem no_options_keeps_session_witness :
    (handle_url ⟨[], []⟩ 3 true (some audioOnlyInfo) "u").2 = .noOptions
    ∧ lookupA (handle_url ⟨[], []⟩ 3 true
        (some audioOnlyInfo) "u").1.sessions 3
      = some ⟨"u", audioOnlyInfo.title, audioOnlyInfo.formats⟩
    ∧ (handle_quality_selection
        (handle_url ⟨[], []⟩ 3 true (some audioOnlyInfo) "u").1
        3 .audio none ⟨false, none⟩ true).2.1 ≠ .sessionExpired :=
  ⟨(no_options_keeps_session ⟨[], []⟩ 3 audioOnlyInfo "u" (by decide)).1,
   (no_options_keeps_session ⟨[], []⟩ 3 audioOnlyInfo "u" (by decide)).2.1,
   (no_options_keeps_session ⟨[], []⟩ 3 audioOnlyInfo "u" (by decide)).2.2.1
     .audio none ⟨false, none⟩ true⟩

/-! ## Progress-hook lemmas -/

/-- Invariant propagation of one `progress_hook` activation: the clock never
moves backwards past the event time, emitted notifications stay more than
10 seconds apart and no later than the stored clock, and any new
notification comes from this event with a nonzero total. -/
theorem progress_hook_step (st : HookState) (e : DlEvent)
    (hle : st.last_update ≤ e.time)
    (hchain : st.sent.Chain' (fun a b => 10 < b.time - a.time))
    (hsent : ∀ n ∈ st.sent, n.time ≤ st.last_update) :
    ((progress_hook st e).last_update = st.last_update
      ∨ (progress_hook st e).last_update = e.time)
    ∧ (progress_hook st e).sent.Chain' (fun a b => 10 < b.time - a.time)
    ∧ (∀ n ∈ (progress_hook st e).sent,
        n.time ≤ (progress_hook st e).last_update)
    ∧ (∀ n ∈ (progress_hook st e).sent, n ∈ st.sent
        ∨ (e.downloading = true ∧ pyTotal e ≠ 0 ∧ n.time = e.time
            ∧ n.percent = (e.downloaded : ℚ) / (pyTotal e : ℚ) * 100)) := by
  by_cases hdl : e.downloading = true
  · by_cases hgate : 10 < e.time - st.last_update
    · by_cases htot : pyTotal e ≠ 0
      · have heq : progress_hook st e =
            ⟨e.time, st.sent ++
              [⟨e.time, (e.downloaded : ℚ) / (pyTotal e : ℚ) * 100⟩]⟩ := by
          simp [progress_hook, hdl, hgate, htot]
        rw [heq]
        refine ⟨Or.inr rfl, ?_, ?_, ?_⟩
        · rw [List.chain'_append]
          refine ⟨hchain, List.chain'_singleton _, ?_⟩
          intro x hx y hy
          simp only [List.head?_cons, Option.mem_def, Option.some.injEq] at hy
          subst hy
          have hxmem : x ∈ st.sent := List.mem_of_mem_getLast? hx
          have : x.time ≤ st.last_update := hsent x hxmem
          simp only
          linarith
        · intro n hn
          rcases List.mem_append.mp hn with hn | hn
          · exact le_trans (hsent n hn) (le_of_lt (by linarith))
          · simp only [List.mem_singleton] at hn
            subst hn
            exact le_refl _
        · intro n hn
          rcases List.mem_append.mp hn with hn | hn
          · exact Or.inl hn
          · simp only [List.mem_singleton] at hn
            subst hn
            exact Or.inr ⟨hdl, htot, rfl, rfl⟩
      · have heq : progress_hook st e = ⟨e.time, st.sent⟩ := by
          simp [progress_hook, hdl, hgate, htot]
        rw [heq]
        refine ⟨Or.inr rfl, hchain, ?_, fun n hn => Or.inl hn⟩
        intro n hn
        exact le_trans (hsent n hn) (le_of_lt (by linarith))
    · have heq : progress_hook st e = st := by
        simp [progress_hook, hdl, hgate]
      rw [heq]
      exact ⟨Or.inl rfl, hchain, hsent, fun n hn => Or.inl hn⟩
  · have heq : progress_hook st e = st := by
      simp [progress_hook, hdl]
    rw [heq]
    exact ⟨Or.inl rfl, hchain, hsent, fun n hn => Or.inl hn⟩

/-- Fold form of the hook invariants over a list of events. -/
theorem runHook_aux (evs : List DlEvent) (st : HookState)
    (hmono : evs.Pairwise (fun a b => a.time ≤ b.time))
    (hle : ∀ e ∈ evs, st.last_update ≤ e.time)
    (hchain : st.sent.Chain' (fun a b => 10 < b.time - a.time))
    (hsent : ∀ n ∈ st.sent, n.time ≤ st.last_update) :
    (∀ n ∈ (evs.foldl progress_hook st).sent, n ∈ st.sent
        ∨ ∃ e ∈ evs, e.downloading = true ∧ pyTotal e ≠ 0 ∧ n.time = e.time
            ∧ n.percent = (e.downloaded : ℚ) / (pyTotal e : ℚ) * 100)
    ∧ (evs.foldl progress_hook st).sent.Chain'
        (fun a b => 10 < b.time - a.time) := by
  induction evs generalizing st with
  | nil => exact ⟨fun n hn => Or.inl hn, hchain⟩
  | cons e es ih =>
      obtain ⟨hhead, hmono'⟩ := List.pairwise_cons.mp hmono
      have hle_e : st.last_update ≤ e.time := hle e (List.mem_cons_self _ _)
      obtain ⟨hlast, hchain', hsent', hnew⟩ :=
        progress_hook_step st e hle_e hchain hsent
      have hle' : ∀ e' ∈ es, (progress_hook st e).last_update ≤ e'.time := by
        intro e' he'
        rcases hlast with h | h
        · rw [h]
          exact hle e' (List.mem_cons_of_mem _ he')
        · rw [h]
          exact hhead e' he'
      rw [List.foldl_cons]
      obtain ⟨hprov, hch⟩ := ih (progress_hook st e) hmono' hle' hchain' hsent'
      refine ⟨?_, hch⟩
      intro n hn
      rcases hprov n hn with hn' | ⟨e', he', hrest⟩
      · rcases hnew n hn' with hold | hfresh
        · exact Or.inl hold
        · exact Or.inr ⟨e, List.mem_cons_self _ _, hfresh⟩
      · exact Or.inr ⟨e', List.mem_cons_of_mem _ he', hrest⟩

/-! ## Claim C10 — progress hook safety -/

/-- Claim C10: over any download whose progress events carry nondecreasing,
nonnegative clock readings, every scheduled notification stems from a
`downloading` event whose total byte count (exact, or the estimate fallback)
is nonzero — so the percentage `downloaded / total * 100` it renders is the
guarded division by that nonzero total and a zero or absent total emits
nothing — and consecutive notifications are more than 10 seconds apart. -/
theorem progress_hook_guarantees (evs : List DlEvent)
    (hmono : evs.Pairwise (fun a b => a.time ≤ b.time))
    (hpos : ∀ e ∈ evs, 0 ≤ e.time) :
    (∀ n ∈ runHook evs, ∃ e ∈ evs, e.downloading = true ∧ pyTotal e ≠ 0
        ∧ n.time = e.time
        ∧ n.percent = (e.downloaded : ℚ) / (pyTotal e : ℚ) * 100)
    ∧ (runHook evs).Chain' (fun a b => 10 < b.time - a.time) := by
  obtain ⟨hprov, hch⟩ := runHook_aux evs ⟨0, []⟩ hmono
    (fun e he => hpos e he) List.chain'_nil (fun n hn => by simp at hn)
  refine ⟨?_, hch⟩
  intro n hn
  rcases hprov n hn with hn' | h
  · simp at hn'
  · exact h

/-- Witness for claim C10: two well-spaced downloading events with a known
total produce two notifications more than 10 seconds apart, at 50% and
80%. -/
theorem progress_hook_guarantees_witness :
    (∀ n ∈ runHook
        [⟨true, 11, 50, some 100, none⟩, ⟨true, 22, 80, some 100, none⟩],
      ∃ e ∈ [(⟨true, 11, 50, some 100, none⟩ : DlEvent),
             ⟨true, 22, 80, some 100, none⟩],
        e.downloading = true ∧ pyTotal e ≠ 0 ∧ n.time = e.time
        ∧ n.percent = (e.downloaded : ℚ) / (pyTotal e : ℚ) * 100)
    ∧ (runHook
        [⟨true, 11, 50, some 100, none⟩,
         ⟨true, 22, 80, some 100, none⟩]).Chain'
        (fun a b => 10 < b.time - a.time) :=
  progress_hook_guarantees
    [⟨true, 11, 50, some 100, none⟩, ⟨true, 22, 80, some 100, none⟩]
    (by norm_num) (by norm_num)

end YtBot
